import Mathlib

/-!
Shallow embedding of the legal compliance checker of this repository
(class `LegalCheckService` in `src/services/legal-checker.ts`).

The JavaScript patterns such as `/[一番最もNo\.?1]/gi` are character
classes: such a regex matches any single character of the listed set (the
`i` flag additionally identifies the two cases of each ASCII letter, and
inside a character class `\.`, `.`, `*` and `?` denote the literal
characters).  Each pattern is therefore embedded as the list of characters
it accepts, written in source order, and `RegExp.test` becomes "some
character of the text lies in the set".  `content.match(pattern)?.[0]` on
such a pattern returns the first character of the text (in text order)
that lies in the set.

The generated UUID (`crypto.randomUUID()`) and timestamp
(`new Date().toISOString()`) are the only non-deterministic inputs of the
checker; they are passed as explicit parameters.  Persistence
(`db.createLegalCheckResult`, `db.getLegalCheckResults`) is an external
collaborator: `getOverallRisk` receives the list of stored results that
the database query would return.
-/

namespace LegalCheck

inductive CheckStatus where
  | passed
  | warning
  | violation
deriving DecidableEq, Repr

abbrev CharClass := List Char

/-- Case folding performed by the `i` flag (only ASCII letters occur in the
pattern tables, for which JavaScript case-insensitivity is plain
lower-casing). -/
def charMatches (x c : Char) : Bool := x.toLower == c.toLower

/-- Embedding of `pattern.test(content)` for a character-class pattern. -/
def testPattern (p : CharClass) (content : String) : Bool :=
  content.toList.any (fun c => p.any (fun x => charMatches x c))

/-- Embedding of `content.match(pattern)`, restricted to its first element:
the first character of the text that the class accepts. -/
def firstMatch (p : CharClass) (content : String) : Option Char :=
  content.toList.find? (fun c => p.any (fun x => charMatches x c))

/-- The substring interpolated into a violation message.  The `none` branch
corresponds to JavaScript interpolating `undefined`; it is unreachable
because messages are only built after `pattern.test` succeeded. -/
def matchedStr (p : CharClass) (content : String) : String :=
  match firstMatch p content with
  | some c => Char.toString c
  | none => "undefined"

/-- Embedding of `hay.includes(needle)`: the needle occurs as a contiguous
substring, i.e. it is a prefix of some suffix. -/
def strIncludes (hay needle : String) : Bool :=
  hay.toList.tails.any (fun t => needle.toList.isPrefixOf t)

/-- Helper of `eraseDupsFirst`: `seen` holds the elements already kept. -/
def eraseDupsFirstAux {α : Type _} [DecidableEq α] (seen : List α) :
    List α → List α
  | [] => []
  | a :: l =>
    if a ∈ seen then eraseDupsFirstAux seen l
    else a :: eraseDupsFirstAux (a :: seen) l

/-- Embedding of `[...new Set(l)]`: removes duplicates keeping the first
occurrence of each element, preserving first-seen order. -/
def eraseDupsFirst {α : Type _} [DecidableEq α] (l : List α) : List α :=
  eraseDupsFirstAux [] l

/-! ### Pattern tables (in source order) -/

def excellencePatterns : List CharClass :=
  [['一','番','最','も','N','o','.','?','1'],
   ['業','界','初','世','界','初','日','本','初'],
   ['1','0','0','%','完','全','完','璧','絶','対'],
   ['効','果','抜','群','驚','異','的'],
   ['必','ず','確','実','間','違','い','な','く'],
   ['史','上','最','高','最','強','最','速']]

def advantagePatterns : List CharClass :=
  [['無','料','タ','ダ','0','円'],
   ['今','だ','け','限','定','特','別'],
   ['大','幅','値','下','げ','破','格'],
   ['通','常','価','格','.','*','円','.','*','が','.','*','円']]

def exaggerationPatterns : List CharClass :=
  [['誰','で','も','簡','単','す','ぐ','に','即','効'],
   ['劇','的','革','命','的','画','期','的'],
   ['魔','法','的','奇','跡','的']]

def severePatterns : List CharClass :=
  [['絶','対','に','痩','せ','る','確','実','に','儲','か','る'],
   ['副','作','用','な','し','1','0','0','%','安','全']]

def medicalDevicePatterns : List CharClass :=
  [['治','療','治','る','病','気','が','治','る'],
   ['診','断','診','察','検','査','結','果'],
   ['医','療','用','医','療','機','器','医','療','器','具']]

def pharmaceuticalPatterns : List CharClass :=
  [['効','く','効','果','が','あ','る','薬','用'],
   ['予','防','防','ぐ','改','善','す','る'],
   ['症','状','が','.','*','す','る','病','状','が']]

def bodyPartPatterns : List CharClass :=
  [['肌','が','.','*','髪','が','.','*','歯','が','.','*'],
   ['血','行','血','流','血','圧'],
   ['筋','肉','関','節','骨']]

def investmentPatterns : List CharClass :=
  [['必','ず','儲','か','る','確','実','に','利','益'],
   ['元','本','保','証','リ','ス','ク','な','し'],
   ['高','利','回','り','高','配','当'],
   ['投','資','.','*','勧','誘']]

def financialPatterns : List CharClass :=
  [['株','式','F','X','仮','想','通','貨'],
   ['投','資','信','託','債','券'],
   ['資','産','運','用','フ','ァ','ン','ド']]

/-! ### Violation message templates -/

def excellenceMsg (m : String) : String :=
  "優良誤認の可能性: \"" ++ m ++ "\" のような表現は根拠が必要です"

def advantageMsg (m : String) : String :=
  "有利誤認の可能性: \"" ++ m ++ "\" の条件や期限を明確にしてください"

def exaggerationMsg (m : String) : String :=
  "誇大表現の可能性: \"" ++ m ++ "\" はより具体的な表現に変更を推奨"

def severeMsg (m : String) : String :=
  "重大な景表法違反の可能性: \"" ++ m ++ "\" は削除が必要です"

def medicalDeviceMsg (m : String) : String :=
  "薬機法違反の可能性: \"" ++ m ++ "\" は医療機器としての承認が必要です"

def pharmaceuticalMsg (m : String) : String :=
  "薬事効果標榜の可能性: \"" ++ m ++ "\" は医薬品以外では使用できません"

def bodyPartMsg (m : String) : String :=
  "身体への効果標榜: \"" ++ m ++ "\" は薬機法に抵触する可能性があります"

def investmentMsg (m : String) : String :=
  "金商法違反の可能性: \"" ++ m ++ "\" は投資勧誘規制に抵触します"

def riskDisclaimerMsg : String :=
  "金融商品に関する表現では、リスクについての記載が必要です"

/-! ### Result records (interface `LegalCheckResult` of `src/types.ts`) -/

structure ViolationDetails where
  violations : List String
  total_issues : Nat
  recommendations : List String
deriving DecidableEq, Repr

structure LegalReferences where
  law_name : String
  relevant_articles : List String
  reference_url : String
deriving DecidableEq, Repr

structure LegalCheckResult where
  id : String
  content_generation_id : String
  law_type : String
  check_status : CheckStatus
  risk_level : Nat
  violation_details : ViolationDetails
  legal_references : LegalReferences
  created_at : String
deriving DecidableEq, Repr

/-! ### The per-tier evaluation loop

Each of the `for (const pattern of ...)` loops of the source mutates the
accumulator `(violations, riskLevel, checkStatus)`; the loops differ only
in the pattern list, the message template, and how risk and status are
updated on a match. -/

structure CheckState where
  violations : List String
  riskLevel : Nat
  checkStatus : CheckStatus
deriving DecidableEq, Repr

def initState : CheckState := ⟨[], 1, .passed⟩

def runTier (pats : List CharClass) (mkMsg : String → String)
    (updRisk : Nat → Nat) (updStatus : CheckStatus → CheckStatus)
    (content : String) (st : CheckState) : CheckState :=
  pats.foldl (fun s p =>
    if testPattern p content then
      { violations := s.violations ++ [mkMsg (matchedStr p content)]
        riskLevel := updRisk s.riskLevel
        checkStatus := updStatus s.checkStatus }
    else s) st

/-- Plain assignment `checkStatus = 'warning'`. -/
def setWarning : CheckStatus → CheckStatus := fun _ => .warning

/-- Plain assignment `checkStatus = 'violation'`. -/
def setViolation : CheckStatus → CheckStatus := fun _ => .violation

/-- The guarded update `checkStatus = checkStatus === 'passed' ? 'warning' :
checkStatus`. -/
def warnIfPassed : CheckStatus → CheckStatus :=
  fun s => if s = .passed then .warning else s

/-! ### Recommendation generators -/

def recKeiExcel1 : String := "客観的な根拠やデータを併記してください"
def recKeiExcel2 : String := "「当社調べ」「○○調査機関による」等の出典を明記してください"
def recKeiAdv1 : String := "価格比較の条件や期限を明確に記載してください"
def recKeiAdv2 : String := "「通常価格との比較」「期間限定」等の詳細を追加してください"
def recKeiExag1 : String := "より具体的で測定可能な表現に変更してください"
def recKeiExag2 : String := "実績や事例を基にした表現を使用してください"
def noIssueKeikyohyo : String := "表現に問題は見つかりませんでした"

/-- Advice contributed by one violation message: the source performs three
independent keyword tests on the message and pushes the corresponding fixed
strings for each test that succeeds. -/
def adviceForKeikyohyo (v : String) : List String :=
  (if strIncludes v "優良誤認" then [recKeiExcel1, recKeiExcel2] else []) ++
  (if strIncludes v "有利誤認" then [recKeiAdv1, recKeiAdv2] else []) ++
  (if strIncludes v "誇大表現" then [recKeiExag1, recKeiExag2] else [])

def getKeikyohyoRecommendations (violations : List String) : List String :=
  let recs := violations.foldl (fun acc v => acc ++ adviceForKeikyohyo v) []
  let recs := if recs.isEmpty then [noIssueKeikyohyo] else recs
  eraseDupsFirst recs

def recYakMed1 : String := "医療機器として承認されていない製品では使用できません"
def recYakMed2 : String := "「健康維持」「快適な生活」等の表現に変更してください"
def recYakPhar1 : String := "医薬品以外では効果・効能の標榜はできません"
def recYakPhar2 : String := "「サポート」「お手伝い」等の補助的表現に変更してください"
def recYakBody1 : String := "身体部位への直接的な効果表現は避けてください"
def recYakBody2 : String := "「気分」「生活の質」等の表現を検討してください"
def noIssueYakukiho : String := "薬機法上の問題は見つかりませんでした"

def adviceForYakukiho (v : String) : List String :=
  (if strIncludes v "医療機器" then [recYakMed1, recYakMed2] else []) ++
  (if strIncludes v "薬事効果" then [recYakPhar1, recYakPhar2] else []) ++
  (if strIncludes v "身体への効果" then [recYakBody1, recYakBody2] else [])

def getYakukihoRecommendations (violations : List String) : List String :=
  let recs := violations.foldl (fun acc v => acc ++ adviceForYakukiho v) []
  let recs := if recs.isEmpty then [noIssueYakukiho] else recs
  eraseDupsFirst recs

def recKinInv1 : String := "「必ず」「確実に」等の断定表現は使用できません"
def recKinInv2 : String := "リスクについての記載を必ず含めてください"
def recKinRisk1 : String := "投資にはリスクが伴うことを明記してください"
def recKinRisk2 : String := "過去の実績は将来を保証するものではない旨を記載してください"
def noIssueKinshoho : String := "金商法上の問題は見つかりませんでした"

def adviceForKinshoho (v : String) : List String :=
  (if strIncludes v "投資勧誘" then [recKinInv1, recKinInv2] else []) ++
  (if strIncludes v "リスク" then [recKinRisk1, recKinRisk2] else [])

def getKinshohoRecommendations (violations : List String) : List String :=
  let recs := violations.foldl (fun acc v => acc ++ adviceForKinshoho v) []
  let recs := if recs.isEmpty then [noIssueKinshoho] else recs
  eraseDupsFirst recs

/-! ### The three category checkers -/

def checkKeikyohyo (uuid timestamp contentId content : String) :
    LegalCheckResult :=
  let st := runTier excellencePatterns excellenceMsg
    (fun r => max r 3) setWarning content initState
  let st := runTier advantagePatterns advantageMsg
    (fun r => max r 2) warnIfPassed content st
  let st := runTier exaggerationPatterns exaggerationMsg
    (fun r => max r 2) warnIfPassed content st
  let st := runTier severePatterns severeMsg
    (fun _ => 5) setViolation content st
  { id := uuid
    content_generation_id := contentId
    law_type := "景表法"
    check_status := st.checkStatus
    risk_level := st.riskLevel
    violation_details :=
      { violations := st.violations
        total_issues := st.violations.length
        recommendations := getKeikyohyoRecommendations st.violations }
    legal_references :=
      { law_name := "不当景品類及び不当表示防止法"
        relevant_articles := ["第5条（優良誤認）", "第5条（有利誤認）"]
        reference_url := "https://www.caa.go.jp/policies/policy/representation/" }
    created_at := timestamp }

def checkYakukiho (uuid timestamp contentId content : String) :
    LegalCheckResult :=
  let st := runTier medicalDevicePatterns medicalDeviceMsg
    (fun r => max r 4) setViolation content initState
  let st := runTier pharmaceuticalPatterns pharmaceuticalMsg
    (fun r => max r 3) warnIfPassed content st
  let st := runTier bodyPartPatterns bodyPartMsg
    (fun r => max r 2) warnIfPassed content st
  { id := uuid
    content_generation_id := contentId
    law_type := "薬機法"
    check_status := st.checkStatus
    risk_level := st.riskLevel
    violation_details :=
      { violations := st.violations
        total_issues := st.violations.length
        recommendations := getYakukihoRecommendations st.violations }
    legal_references :=
      { law_name := "医薬品、医療機器等の品質、有効性及び安全性の確保等に関する法律"
        relevant_articles := ["第66条（誇大広告の禁止）", "第68条（承認前の広告禁止）"]
        reference_url := "https://www.pmda.go.jp/" }
    created_at := timestamp }

/-- The loop over `financialPatterns` with `break`: true when some financial
pattern matches. -/
def hasFinancialTerms (content : String) : Bool :=
  financialPatterns.any (fun p => testPattern p content)

/-- Condition under which the risk-disclaimer violation is recorded. -/
def disclaimerTriggered (content : String) : Bool :=
  hasFinancialTerms content &&
    !(strIncludes content "リスク") && !(strIncludes content "注意")

/-- The accumulator of `checkKinshoho` after the investment loop and the
conditional risk-disclaimer block. -/
def kinshohoState (content : String) : CheckState :=
  let st := runTier investmentPatterns investmentMsg
    (fun r => max r 4) setViolation content initState
  if disclaimerTriggered content then
    { violations := st.violations ++ [riskDisclaimerMsg]
      riskLevel := max st.riskLevel 2
      checkStatus := warnIfPassed st.checkStatus }
  else st

def checkKinshoho (uuid timestamp contentId content : String) :
    LegalCheckResult :=
  let st := kinshohoState content
  { id := uuid
    content_generation_id := contentId
    law_type := "金商法"
    check_status := st.checkStatus
    risk_level := st.riskLevel
    violation_details :=
      { violations := st.violations
        total_issues := st.violations.length
        recommendations := getKinshohoRecommendations st.violations }
    legal_references :=
      { law_name := "金融商品取引法"
        relevant_articles := ["第37条（誇大広告の禁止）", "第38条（不適正な勧誘の禁止）"]
        reference_url := "https://www.jsa.or.jp/" }
    created_at := timestamp }

/-! ### Orchestrator -/

def checkContent (u1 u2 u3 t1 t2 t3 contentId content : String) :
    List LegalCheckResult :=
  [checkKeikyohyo u1 t1 contentId content,
   checkYakukiho u2 t2 contentId content,
   checkKinshoho u3 t3 contentId content]

/-- Entry point including the failure path.  In the source a `null` or
`undefined` content coerces to the string "null" or "undefined" inside
`pattern.test`, which succeeds on the first excellence pattern (the letter
n matches the class by case-insensitivity), so the subsequent
`content.match` dereferences `null` and throws; the surrounding
`try/catch` of `checkContent` rethrows `Error('法令チェックの実行に失敗しました')`.
A missing text is therefore the one input on which the checker itself
fails, and that single generic error is the only error kind it raises. -/
def checkContentChecked (u1 u2 u3 t1 t2 t3 contentId : String)
    (content : Option String) : Except String (List LegalCheckResult) :=
  match content with
  | none => .error "法令チェックの実行に失敗しました"
  | some c => .ok (checkContent u1 u2 u3 t1 t2 t3 contentId c)

/-! ### Overall risk aggregation -/

structure OverallRisk where
  overall_risk : Nat
  status : CheckStatus
  summary : String
deriving DecidableEq, Repr

/-- Embedding of `Math.max(...xs)` as used on the (non-empty) list of risk
levels. -/
def listMax (l : List Nat) : Nat := l.foldl max 0

/-- Aggregation over the stored check results of one content id; the
database fetch is the caller's, so the fetched list is the argument. -/
def getOverallRisk (results : List LegalCheckResult) : OverallRisk :=
  if results.isEmpty then
    { overall_risk := 1
      status := .passed
      summary := "法令チェックが実行されていません" }
  else
    let maxRisk := listMax (results.map (fun r => r.risk_level))
    let hasViolation := results.any (fun r => r.check_status == .violation)
    let hasWarning := results.any (fun r => r.check_status == .warning)
    let status : CheckStatus :=
      if hasViolation then .violation
      else if hasWarning then .warning
      else .passed
    let violationCount :=
      (results.filter (fun r => r.check_status == .violation)).length
    let warningCount :=
      (results.filter (fun r => r.check_status == .warning)).length
    let summary :=
      if violationCount > 0 then
        toString violationCount ++ "件の法令違反の可能性が検出されました。修正が必要です。"
      else if warningCount > 0 then
        toString warningCount ++ "件の注意事項が検出されました。確認をお勧めします。"
      else "法令チェックを通過しました。"
    { overall_risk := maxRisk, status := status, summary := summary }

/-! ### Spec-side descriptions

The following definitions restate, in the vocabulary of the specification,
what the checker is claimed to compute; the theorems below compare them
with the embedded source functions. -/

/-- Some pattern of the tier matches the text. -/
def tierAny (pats : List CharClass) (c : String) : Bool :=
  pats.any (fun p => testPattern p c)

/-- The violation messages a tier contributes, in rule-table order. -/
def tierMsgs (pats : List CharClass) (mkMsg : String → String) (c : String) :
    List String :=
  (pats.filter (fun p => testPattern p c)).map
    (fun p => mkMsg (matchedStr p c))

/-- A pattern rule of the specification: pattern, severity contribution and
message template. -/
structure Rule where
  pattern : CharClass
  severity : Nat
  template : String → String

def keikyohyoRules : List Rule :=
  excellencePatterns.map (fun p => ⟨p, 3, excellenceMsg⟩) ++
  advantagePatterns.map (fun p => ⟨p, 2, advantageMsg⟩) ++
  exaggerationPatterns.map (fun p => ⟨p, 2, exaggerationMsg⟩) ++
  severePatterns.map (fun p => ⟨p, 5, severeMsg⟩)

def yakukihoRules : List Rule :=
  medicalDevicePatterns.map (fun p => ⟨p, 4, medicalDeviceMsg⟩) ++
  pharmaceuticalPatterns.map (fun p => ⟨p, 3, pharmaceuticalMsg⟩) ++
  bodyPartPatterns.map (fun p => ⟨p, 2, bodyPartMsg⟩)

def kinshohoPatternRules : List Rule :=
  investmentPatterns.map (fun p => ⟨p, 4, investmentMsg⟩)

/-- Maximum severity contribution among the rules that triggered, starting
at 1 when none triggered. -/
def maxTriggeredSeverity (rules : List Rule) (c : String) : Nat :=
  rules.foldl
    (fun acc r => if testPattern r.pattern c then max acc r.severity else acc) 1

/-- All messages of triggered rules, in rule-table order; nothing dropped. -/
def triggeredMessages (rules : List Rule) (c : String) : List String :=
  (rules.filter (fun r => testPattern r.pattern c)).map
    (fun r => r.template (matchedStr r.pattern c))

/-- Spec-side risk for the financial category: the pattern rules plus the
risk-disclaimer rule of severity 2. -/
def kinshohoSpecRisk (c : String) : Nat :=
  let base := maxTriggeredSeverity kinshohoPatternRules c
  if disclaimerTriggered c then max base 2 else base

/-! Closed forms of risk level and status over the four (resp. three, two)
tier-level match booleans. -/

def kkRiskOf (e a x s : Bool) : Nat :=
  let r1 := if e then max 1 3 else 1
  let r2 := if a then max r1 2 else r1
  let r3 := if x then max r2 2 else r2
  if s then 5 else r3

def kkStatusOf (e a x s : Bool) : CheckStatus :=
  let s1 := if e then setWarning .passed else .passed
  let s2 := if a then warnIfPassed s1 else s1
  let s3 := if x then warnIfPassed s2 else s2
  if s then setViolation s3 else s3

def ykRiskOf (m p b : Bool) : Nat :=
  let r1 := if m then max 1 4 else 1
  let r2 := if p then max r1 3 else r1
  if b then max r2 2 else r2

def ykStatusOf (m p b : Bool) : CheckStatus :=
  let s1 := if m then setViolation .passed else .passed
  let s2 := if p then warnIfPassed s1 else s1
  if b then warnIfPassed s2 else s2

def ksRiskOf (i d : Bool) : Nat :=
  let r1 := if i then max 1 4 else 1
  if d then max r1 2 else r1

def ksStatusOf (i d : Bool) : CheckStatus :=
  let s1 := if i then setViolation .passed else .passed
  if d then warnIfPassed s1 else s1

/-! Expected recommendation lists, phrased per advice-carrying sub-concern. -/

def kkExpectedRecs (c : String) : List String :=
  let advice :=
    (if tierAny excellencePatterns c then [recKeiExcel1, recKeiExcel2] else []) ++
    (if tierAny advantagePatterns c then [recKeiAdv1, recKeiAdv2] else []) ++
    (if tierAny exaggerationPatterns c then [recKeiExag1, recKeiExag2] else [])
  if advice.isEmpty then [noIssueKeikyohyo] else eraseDupsFirst advice

def ykExpectedRecs (c : String) : List String :=
  let advice :=
    (if tierAny medicalDevicePatterns c then [recYakMed1, recYakMed2] else []) ++
    (if tierAny pharmaceuticalPatterns c then [recYakPhar1, recYakPhar2] else []) ++
    (if tierAny bodyPartPatterns c then [recYakBody1, recYakBody2] else [])
  if advice.isEmpty then [noIssueYakukiho] else eraseDupsFirst advice

def ksExpectedRecs (c : String) : List String :=
  let advice :=
    (if tierAny investmentPatterns c then [recKinInv1, recKinInv2] else []) ++
    (if disclaimerTriggered c then [recKinRisk1, recKinRisk2] else [])
  if advice.isEmpty then [noIssueKinshoho] else eraseDupsFirst advice

/-- A spanning occurrence of the needle around one unknown character is
possible only if some split of the needle is a suffix of the prefix text
and a prefix of the suffix text; this is decidable from the concrete
message template alone. -/
def canSpan (pre suf kw : List Char) : Bool :=
  (List.range kw.length).any
    (fun j => decide (kw.take j <:+ pre) && decide (kw.drop (j + 1) <+: suf))

/-- The spec-side maximum over the unfair-representation rule table, in
closed form; it agrees with the checker because the severe tier's plain
assignment of 5 coincides with taking the maximum. -/
def kkSpecRiskOf (e a x s : Bool) : Nat :=
  let r1 := if e then max 1 3 else 1
  let r2 := if a then max r1 2 else r1
  let r3 := if x then max r2 2 else r2
  if s then max r3 5 else r3

/-- Projection of a result to its input-determined fields: everything but
the generated identifier and timestamp. -/
def findingCore (f : LegalCheckResult) :
    String × CheckStatus × Nat × ViolationDetails :=
  (f.law_type, f.check_status, f.risk_level, f.violation_details)

/-! ### Generic lemmas about the tier loop -/

theorem runTier_violations (pats : List CharClass) (mkMsg : String → String)
    (uR : Nat → Nat) (uS : CheckStatus → CheckStatus) (c : String)
    (st : CheckState) :
    (runTier pats mkMsg uR uS c st).violations =
      st.violations ++ tierMsgs pats mkMsg c := by
  induction pats generalizing st with
  | nil => simp [runTier, tierMsgs]
  | cons p ps ih =>
    show (runTier ps mkMsg uR uS c
      (if testPattern p c = true then
        { violations := st.violations ++ [mkMsg (matchedStr p c)]
          riskLevel := uR st.riskLevel
          checkStatus := uS st.checkStatus }
      else st)).violations = st.violations ++ tierMsgs (p :: ps) mkMsg c
    by_cases h : testPattern p c
    · rw [if_pos h, ih]
      simp [tierMsgs, List.filter_cons, h]
    · rw [if_neg h, ih]
      simp [tierMsgs, List.filter_cons, h]

theorem runTier_risk (pats : List CharClass) (mkMsg : String → String)
    (uR : Nat → Nat) (uS : CheckStatus → CheckStatus) (c : String)
    (st : CheckState) (idem : ∀ r, uR (uR r) = uR r) :
    (runTier pats mkMsg uR uS c st).riskLevel =
      if tierAny pats c then uR st.riskLevel else st.riskLevel := by
  induction pats generalizing st with
  | nil => simp [runTier, tierAny]
  | cons p ps ih =>
    show (runTier ps mkMsg uR uS c
      (if testPattern p c = true then
        { violations := st.violations ++ [mkMsg (matchedStr p c)]
          riskLevel := uR st.riskLevel
          checkStatus := uS st.checkStatus }
      else st)).riskLevel =
      if tierAny (p :: ps) c then uR st.riskLevel else st.riskLevel
    by_cases h : testPattern p c
    · rw [if_pos h, ih]
      by_cases h2 : tierAny ps c <;>
        simp [tierAny, List.any_cons, h, h2, idem]
    · rw [if_neg h, ih]
      simp [tierAny, List.any_cons, h]

theorem runTier_status (pats : List CharClass) (mkMsg : String → String)
    (uR : Nat → Nat) (uS : CheckStatus → CheckStatus) (c : String)
    (st : CheckState) (idem : ∀ s, uS (uS s) = uS s) :
    (runTier pats mkMsg uR uS c st).checkStatus =
      if tierAny pats c then uS st.checkStatus else st.checkStatus := by
  induction pats generalizing st with
  | nil => simp [runTier, tierAny]
  | cons p ps ih =>
    show (runTier ps mkMsg uR uS c
      (if testPattern p c = true then
        { violations := st.violations ++ [mkMsg (matchedStr p c)]
          riskLevel := uR st.riskLevel
          checkStatus := uS st.checkStatus }
      else st)).checkStatus =
      if tierAny (p :: ps) c then uS st.checkStatus else st.checkStatus
    by_cases h : testPattern p c
    · rw [if_pos h, ih]
      by_cases h2 : tierAny ps c <;>
        simp [tierAny, List.any_cons, h, h2, idem]
    · rw [if_neg h, ih]
      simp [tierAny, List.any_cons, h]

theorem setWarning_idem : ∀ s, setWarning (setWarning s) = setWarning s := by
  intro s; rfl

theorem setViolation_idem :
    ∀ s, setViolation (setViolation s) = setViolation s := by
  intro s; rfl

theorem warnIfPassed_idem :
    ∀ s, warnIfPassed (warnIfPassed s) = warnIfPassed s := by
  intro s; cases s <;> rfl

theorem max_idem_right (k : Nat) : ∀ r, max (max r k) k = max r k := by
  intro r; omega

/-! ### Substring machinery -/

theorem strIncludes_iff (hay needle : String) :
    strIncludes hay needle = true ↔ needle.toList <:+: hay.toList := by
  unfold strIncludes
  rw [List.any_eq_true]
  constructor
  · rintro ⟨t, ht, hp⟩
    exact ((List.isPrefixOf_iff_prefix.mp hp).isInfix).trans
      ((List.mem_tails _ _).mp ht).isInfix
  · rintro ⟨s, t, hst⟩
    refine ⟨needle.toList ++ t, ?_, ?_⟩
    · exact (List.mem_tails _ _).mpr ⟨s, by rw [← hst]; simp⟩
    · exact List.isPrefixOf_iff_prefix.mpr (List.prefix_append _ _)

theorem strIncludes_false_iff (hay needle : String) :
    strIncludes hay needle = false ↔ ¬ needle.toList <:+: hay.toList := by
  rw [← strIncludes_iff]
  cases h : strIncludes hay needle <;> simp

/-- Decomposition of a prefix occurrence around a distinguished single
character: either the occurrence stays inside `pre`, or it swallows all of
`pre` and the character. -/
theorem prefix_single_decomp :
    ∀ (pre kw : List Char) (ch : Char) (suf : List Char),
    kw <+: (pre ++ ch :: suf) →
    kw <+: pre ∨
      ∃ j, j < kw.length ∧ kw.take j = pre ∧ kw.drop (j + 1) <+: suf := by
  intro pre
  induction pre with
  | nil =>
    intro kw ch suf h
    cases kw with
    | nil => exact Or.inl List.nil_prefix
    | cons k kw' =>
      obtain ⟨t, ht⟩ := h
      rw [List.nil_append, List.cons_append] at ht
      injection ht with hk ht'
      subst hk
      exact Or.inr ⟨0, by simp, rfl, ⟨t, ht'⟩⟩
  | cons p pre' ih =>
    intro kw ch suf h
    cases kw with
    | nil => exact Or.inl List.nil_prefix
    | cons k kw' =>
      obtain ⟨t, ht⟩ := h
      rw [List.cons_append, List.cons_append] at ht
      injection ht with hk ht'
      subst hk
      rcases ih kw' ch suf ⟨t, ht'⟩ with h1 | ⟨j, hj, htake, hdrop⟩
      · exact Or.inl (List.cons_prefix_cons.mpr ⟨rfl, h1⟩)
      · refine Or.inr ⟨j + 1, by simpa using Nat.succ_lt_succ hj, ?_, ?_⟩
        · rw [List.take_succ_cons, htake]
        · rw [List.drop_succ_cons]; exact hdrop

/-- Decomposition of an infix occurrence around a distinguished single
character: the occurrence lies inside `pre`, inside `suf`, or spans the
character, in which case a split of the needle is a suffix of `pre` and a
prefix of `suf`. -/
theorem infix_single_decomp :
    ∀ (pre kw : List Char) (ch : Char) (suf : List Char),
    kw <:+: (pre ++ ch :: suf) →
    kw <:+: pre ∨ kw <:+: suf ∨
      ∃ j, j < kw.length ∧ kw.take j <:+ pre ∧ kw.drop (j + 1) <+: suf := by
  intro pre
  induction pre with
  | nil =>
    intro kw ch suf h
    rw [List.nil_append] at h
    rcases List.infix_cons_iff.mp h with hpre | hinf
    · rcases prefix_single_decomp [] kw ch suf (by simpa using hpre) with
        h1 | ⟨j, hj, htake, hdrop⟩
      · have hnil : kw = [] := List.prefix_nil.mp h1
        subst hnil
        exact Or.inl List.nil_infix
      · exact Or.inr (Or.inr ⟨j, hj, by rw [htake], hdrop⟩)
    · exact Or.inr (Or.inl hinf)
  | cons p pre' ih =>
    intro kw ch suf h
    rw [List.cons_append] at h
    rcases List.infix_cons_iff.mp h with hpre | hinf
    · rcases prefix_single_decomp (p :: pre') kw ch suf
        (by simpa using hpre) with h1 | ⟨j, hj, htake, hdrop⟩
      · exact Or.inl h1.isInfix
      · exact Or.inr (Or.inr ⟨j, hj, by rw [htake], hdrop⟩)
    · rcases ih kw ch suf hinf with h1 | h2 | ⟨j, hj, htake, hdrop⟩
      · exact Or.inl (List.infix_cons h1)
      · exact Or.inr (Or.inl h2)
      · exact Or.inr (Or.inr
          ⟨j, hj, htake.trans (List.suffix_cons p pre'), hdrop⟩)

theorem toList_around (pre suf : String) (ch : Char) :
    (pre ++ Char.toString ch ++ suf).toList =
      pre.toList ++ ch :: suf.toList := by
  show (pre ++ Char.toString ch ++ suf).data = pre.data ++ ch :: suf.data
  rw [String.data_append, String.data_append]
  show pre.data ++ [ch] ++ suf.data = pre.data ++ ch :: suf.data
  simp

theorem not_strIncludes_around (pre suf kw : String) (ch : Char)
    (h1 : strIncludes pre kw = false)
    (h2 : strIncludes suf kw = false)
    (h3 : canSpan pre.toList suf.toList kw.toList = false) :
    strIncludes (pre ++ Char.toString ch ++ suf) kw = false := by
  rw [strIncludes_false_iff, toList_around]
  intro hinf
  rcases infix_single_decomp pre.toList kw.toList ch suf.toList hinf with
    hA | hB | ⟨j, hj, htake, hdrop⟩
  · exact (strIncludes_false_iff pre kw).mp h1 hA
  · exact (strIncludes_false_iff suf kw).mp h2 hB
  · have := List.any_eq_false.mp h3 j (List.mem_range.mpr hj)
    simp only [Bool.and_eq_true, decide_eq_true_eq] at this
    exact this ⟨htake, hdrop⟩

theorem strIncludes_of_left (pre mid suf kw : String)
    (h : strIncludes pre kw = true) :
    strIncludes (pre ++ mid ++ suf) kw = true := by
  rw [strIncludes_iff] at h ⊢
  obtain ⟨s, t, hst⟩ := h
  have hst' : s ++ kw.toList ++ t = pre.data := hst
  refine ⟨s, t ++ (mid.data ++ suf.data), ?_⟩
  show s ++ kw.toList ++ (t ++ (mid.data ++ suf.data)) =
    (pre ++ mid ++ suf).data
  rw [String.data_append, String.data_append, ← hst']
  simp

theorem strIncludes_of_right (pre mid suf kw : String)
    (h : strIncludes suf kw = true) :
    strIncludes (pre ++ mid ++ suf) kw = true := by
  rw [strIncludes_iff] at h ⊢
  obtain ⟨s, t, hst⟩ := h
  have hst' : s ++ kw.toList ++ t = suf.data := hst
  refine ⟨pre.data ++ mid.data ++ s, t, ?_⟩
  show pre.data ++ mid.data ++ s ++ kw.toList ++ t =
    (pre ++ mid ++ suf).data
  rw [String.data_append, String.data_append, ← hst']
  simp

theorem matchedStr_eq_char (p : CharClass) (c : String)
    (h : testPattern p c = true) :
    ∃ ch, matchedStr p c = Char.toString ch := by
  unfold testPattern at h
  have hs : (List.find? (fun ch => p.any (fun x => charMatches x ch))
      c.toList).isSome = true :=
    List.find?_isSome.mpr (List.any_eq_true.mp h)
  unfold matchedStr firstMatch
  cases hf : List.find? (fun ch => p.any (fun x => charMatches x ch))
      c.toList with
  | none => rw [hf] at hs; simp at hs
  | some ch => exact ⟨ch, rfl⟩

/-! ### Deduplication lemmas -/

theorem eraseDupsFirstAux_dup {α : Type _} [DecidableEq α] :
    ∀ (xs seen : List α) (x : α) (ys : List α), x ∈ xs ∨ x ∈ seen →
      eraseDupsFirstAux seen (xs ++ x :: ys) =
        eraseDupsFirstAux seen (xs ++ ys) := by
  intro xs
  induction xs with
  | nil =>
    intro seen x ys hx
    rcases hx with h | h
    · simp at h
    · show eraseDupsFirstAux seen (x :: ys) = eraseDupsFirstAux seen ys
      simp [eraseDupsFirstAux, h]
  | cons a xs' ih =>
    intro seen x ys hx
    show eraseDupsFirstAux seen (a :: (xs' ++ x :: ys)) =
      eraseDupsFirstAux seen (a :: (xs' ++ ys))
    by_cases ha : a ∈ seen
    · simp only [eraseDupsFirstAux, if_pos ha]
      refine ih seen x ys ?_
      rcases hx with h | h
      · rcases List.mem_cons.mp h with h1 | h1
        · exact Or.inr (h1 ▸ ha)
        · exact Or.inl h1
      · exact Or.inr h
    · simp only [eraseDupsFirstAux, if_neg ha]
      congr 1
      refine ih (a :: seen) x ys ?_
      rcases hx with h | h
      · rcases List.mem_cons.mp h with h1 | h1
        · exact Or.inr (h1 ▸ List.mem_cons_self a seen)
        · exact Or.inl h1
      · exact Or.inr (List.mem_cons_of_mem a h)

/-- Dropping an element that already occurred earlier does not change the
first-occurrence deduplication. -/
theorem eraseDupsFirst_dup {α : Type _} [DecidableEq α] (xs : List α)
    (x : α) (ys : List α) (hx : x ∈ xs) :
    eraseDupsFirst (xs ++ x :: ys) = eraseDupsFirst (xs ++ ys) :=
  eraseDupsFirstAux_dup xs [] x ys (Or.inl hx)

theorem eDF_pair_reduce {α : Type _} [DecidableEq α] (pre : List α)
    (s₁ s₂ : α) (h₁ : s₁ ∈ pre) (h₂ : s₂ ∈ pre) :
    ∀ (k : Nat) (rest : List α),
      eraseDupsFirst (pre ++ ((List.replicate k [s₁, s₂]).flatten ++ rest)) =
        eraseDupsFirst (pre ++ rest) := by
  intro k
  induction k with
  | zero => simp
  | succ k ihk =>
    intro rest
    rw [List.replicate_succ, List.flatten_cons]
    have e1 : ([s₁, s₂] ++ (List.replicate k [s₁, s₂]).flatten) ++ rest =
        s₁ :: (s₂ :: ((List.replicate k [s₁, s₂]).flatten ++ rest)) := by
      simp
    rw [e1, eraseDupsFirst_dup pre s₁ _ h₁, eraseDupsFirst_dup pre s₂ _ h₂]
    exact ihk rest

/-- Collapsing repeated copies of a two-element advice block: only whether
the block occurs at all matters for the deduplicated result. -/
theorem eDF_block {α : Type _} [DecidableEq α] (pre : List α) (s₁ s₂ : α)
    (k : Nat) (rest : List α) :
    eraseDupsFirst (pre ++ ((List.replicate k [s₁, s₂]).flatten ++ rest)) =
      eraseDupsFirst (pre ++ ((if k = 0 then [] else [s₁, s₂]) ++ rest)) := by
  cases k with
  | zero => simp
  | succ k =>
    rw [List.replicate_succ, List.flatten_cons, if_neg (Nat.succ_ne_zero k)]
    have e1 : pre ++ (([s₁, s₂] ++ (List.replicate k [s₁, s₂]).flatten) ++ rest) =
        (pre ++ [s₁, s₂]) ++ ((List.replicate k [s₁, s₂]).flatten ++ rest) := by
      simp
    have e2 : pre ++ ([s₁, s₂] ++ rest) = (pre ++ [s₁, s₂]) ++ rest := by
      simp
    rw [e1, e2]
    exact eDF_pair_reduce (pre ++ [s₁, s₂]) s₁ s₂ (by simp) (by simp) k rest

/-! ### Fold and flatMap helpers -/

theorem foldl_append_eq_flatMap {α β : Type _} (f : α → List β) :
    ∀ (l : List α) (init : List β),
      l.foldl (fun acc v => acc ++ f v) init = init ++ l.flatMap f := by
  intro l
  induction l with
  | nil => simp
  | cons a l ih =>
    intro init
    rw [List.foldl_cons, ih]
    simp

theorem flatMap_const {α β : Type _} (f : α → List β) (A : List β) :
    ∀ (l : List α), (∀ v ∈ l, f v = A) →
      l.flatMap f = (List.replicate l.length A).flatten := by
  intro l
  induction l with
  | nil => simp
  | cons a l ih =>
    intro h
    rw [List.flatMap_cons, List.length_cons, List.replicate_succ,
      List.flatten_cons, h a (List.mem_cons_self a l),
      ih fun v hv => h v (List.mem_cons_of_mem a hv)]

/-! ### Closed forms of the three category checkers -/

theorem checkKeikyohyo_violations (u t cid c : String) :
    (checkKeikyohyo u t cid c).violation_details.violations =
      tierMsgs excellencePatterns excellenceMsg c ++
      tierMsgs advantagePatterns advantageMsg c ++
      tierMsgs exaggerationPatterns exaggerationMsg c ++
      tierMsgs severePatterns severeMsg c := by
  show (runTier severePatterns severeMsg (fun _ => 5) setViolation c
    (runTier exaggerationPatterns exaggerationMsg (fun r => max r 2)
      warnIfPassed c
      (runTier advantagePatterns advantageMsg (fun r => max r 2)
        warnIfPassed c
        (runTier excellencePatterns excellenceMsg (fun r => max r 3)
          setWarning c initState)))).violations = _
  rw [runTier_violations, runTier_violations, runTier_violations,
    runTier_violations]
  simp [initState]

theorem checkKeikyohyo_risk (u t cid c : String) :
    (checkKeikyohyo u t cid c).risk_level =
      kkRiskOf (tierAny excellencePatterns c) (tierAny advantagePatterns c)
        (tierAny exaggerationPatterns c) (tierAny severePatterns c) := by
  show (runTier severePatterns severeMsg (fun _ => 5) setViolation c
    (runTier exaggerationPatterns exaggerationMsg (fun r => max r 2)
      warnIfPassed c
      (runTier advantagePatterns advantageMsg (fun r => max r 2)
        warnIfPassed c
        (runTier excellencePatterns excellenceMsg (fun r => max r 3)
          setWarning c initState)))).riskLevel = _
  rw [runTier_risk severePatterns severeMsg (fun _ => 5) setViolation c _
      (fun r => rfl),
    runTier_risk _ _ _ _ _ _ (max_idem_right 2),
    runTier_risk _ _ _ _ _ _ (max_idem_right 2),
    runTier_risk _ _ _ _ _ _ (max_idem_right 3)]
  simp only [kkRiskOf, initState]

theorem checkKeikyohyo_status (u t cid c : String) :
    (checkKeikyohyo u t cid c).check_status =
      kkStatusOf (tierAny excellencePatterns c) (tierAny advantagePatterns c)
        (tierAny exaggerationPatterns c) (tierAny severePatterns c) := by
  show (runTier severePatterns severeMsg (fun _ => 5) setViolation c
    (runTier exaggerationPatterns exaggerationMsg (fun r => max r 2)
      warnIfPassed c
      (runTier advantagePatterns advantageMsg (fun r => max r 2)
        warnIfPassed c
        (runTier excellencePatterns excellenceMsg (fun r => max r 3)
          setWarning c initState)))).checkStatus = _
  rw [runTier_status _ _ _ _ _ _ setViolation_idem,
    runTier_status _ _ _ _ _ _ warnIfPassed_idem,
    runTier_status _ _ _ _ _ _ warnIfPassed_idem,
    runTier_status _ _ _ _ _ _ setWarning_idem]
  simp only [kkStatusOf, initState]

theorem checkYakukiho_violations (u t cid c : String) :
    (checkYakukiho u t cid c).violation_details.violations =
      tierMsgs medicalDevicePatterns medicalDeviceMsg c ++
      tierMsgs pharmaceuticalPatterns pharmaceuticalMsg c ++
      tierMsgs bodyPartPatterns bodyPartMsg c := by
  show (runTier bodyPartPatterns bodyPartMsg (fun r => max r 2)
    warnIfPassed c
    (runTier pharmaceuticalPatterns pharmaceuticalMsg (fun r => max r 3)
      warnIfPassed c
      (runTier medicalDevicePatterns medicalDeviceMsg (fun r => max r 4)
        setViolation c initState))).violations = _
  rw [runTier_violations, runTier_violations, runTier_violations]
  simp [initState]

theorem checkYakukiho_risk (u t cid c : String) :
    (checkYakukiho u t cid c).risk_level =
      ykRiskOf (tierAny medicalDevicePatterns c)
        (tierAny pharmaceuticalPatterns c) (tierAny bodyPartPatterns c) := by
  show (runTier bodyPartPatterns bodyPartMsg (fun r => max r 2)
    warnIfPassed c
    (runTier pharmaceuticalPatterns pharmaceuticalMsg (fun r => max r 3)
      warnIfPassed c
      (runTier medicalDevicePatterns medicalDeviceMsg (fun r => max r 4)
        setViolation c initState))).riskLevel = _
  rw [runTier_risk _ _ _ _ _ _ (max_idem_right 2),
    runTier_risk _ _ _ _ _ _ (max_idem_right 3),
    runTier_risk _ _ _ _ _ _ (max_idem_right 4)]
  simp only [ykRiskOf, initState]

theorem checkYakukiho_status (u t cid c : String) :
    (checkYakukiho u t cid c).check_status =
      ykStatusOf (tierAny medicalDevicePatterns c)
        (tierAny pharmaceuticalPatterns c) (tierAny bodyPartPatterns c) := by
  show (runTier bodyPartPatterns bodyPartMsg (fun r => max r 2)
    warnIfPassed c
    (runTier pharmaceuticalPatterns pharmaceuticalMsg (fun r => max r 3)
      warnIfPassed c
      (runTier medicalDevicePatterns medicalDeviceMsg (fun r => max r 4)
        setViolation c initState))).checkStatus = _
  rw [runTier_status _ _ _ _ _ _ warnIfPassed_idem,
    runTier_status _ _ _ _ _ _ warnIfPassed_idem,
    runTier_status _ _ _ _ _ _ setViolation_idem]
  simp only [ykStatusOf, initState]

theorem checkKinshoho_violations (u t cid c : String) :
    (checkKinshoho u t cid c).violation_details.violations =
      tierMsgs investmentPatterns investmentMsg c ++
      (if disclaimerTriggered c then [riskDisclaimerMsg] else []) := by
  show (kinshohoState c).violations = _
  have hv : (runTier investmentPatterns investmentMsg (fun r => max r 4)
      setViolation c initState).violations =
      tierMsgs investmentPatterns investmentMsg c := by
    rw [runTier_violations]
    simp [initState]
  by_cases hd : disclaimerTriggered c <;>
    simp [kinshohoState, hd, hv]

theorem checkKinshoho_risk (u t cid c : String) :
    (checkKinshoho u t cid c).risk_level =
      ksRiskOf (tierAny investmentPatterns c) (disclaimerTriggered c) := by
  show (kinshohoState c).riskLevel = _
  have hr : (runTier investmentPatterns investmentMsg (fun r => max r 4)
      setViolation c initState).riskLevel =
      if tierAny investmentPatterns c then max 1 4 else 1 := by
    rw [runTier_risk _ _ _ _ _ _ (max_idem_right 4)]
    rfl
  by_cases hd : disclaimerTriggered c <;>
    simp [kinshohoState, ksRiskOf, hd, hr]

theorem checkKinshoho_status (u t cid c : String) :
    (checkKinshoho u t cid c).check_status =
      ksStatusOf (tierAny investmentPatterns c) (disclaimerTriggered c) := by
  show (kinshohoState c).checkStatus = _
  have hs : (runTier investmentPatterns investmentMsg (fun r => max r 4)
      setViolation c initState).checkStatus =
      if tierAny investmentPatterns c then setViolation CheckStatus.passed
      else CheckStatus.passed := by
    rw [runTier_status _ _ _ _ _ _ setViolation_idem]
    rfl
  by_cases hd : disclaimerTriggered c <;>
    simp [kinshohoState, ksStatusOf, hd, hs]

/-! ### Spec-side rule folds -/

theorem foldl_sev_block (pats : List CharClass) (σ : Nat)
    (mk : String → String) (c : String) :
    ∀ acc, (pats.map (fun p => (⟨p, σ, mk⟩ : Rule))).foldl
      (fun acc r => if testPattern r.pattern c then max acc r.severity
        else acc) acc =
      if tierAny pats c then max acc σ else acc := by
  induction pats with
  | nil => intro acc; simp [tierAny]
  | cons p ps ih =>
    intro acc
    rw [List.map_cons, List.foldl_cons]
    by_cases h : testPattern p c
    · show (ps.map fun p => (⟨p, σ, mk⟩ : Rule)).foldl _
        (if testPattern p c = true then max acc σ else acc) = _
      rw [if_pos h, ih]
      by_cases h2 : tierAny ps c <;>
        simp [tierAny, List.any_cons, h, h2, max_idem_right]
    · show (ps.map fun p => (⟨p, σ, mk⟩ : Rule)).foldl _
        (if testPattern p c = true then max acc σ else acc) = _
      rw [if_neg h, ih]
      simp [tierAny, List.any_cons, h]

theorem triggeredMessages_block (pats : List CharClass) (σ : Nat)
    (mk : String → String) (c : String) :
    triggeredMessages (pats.map (fun p => (⟨p, σ, mk⟩ : Rule))) c =
      tierMsgs pats mk c := by
  unfold triggeredMessages tierMsgs
  rw [List.filter_map, List.map_map]
  rfl

theorem triggeredMessages_append (r₁ r₂ : List Rule) (c : String) :
    triggeredMessages (r₁ ++ r₂) c =
      triggeredMessages r₁ c ++ triggeredMessages r₂ c := by
  unfold triggeredMessages
  rw [List.filter_append, List.map_append]

theorem maxTriggeredSeverity_kk (c : String) :
    maxTriggeredSeverity keikyohyoRules c =
      kkSpecRiskOf (tierAny excellencePatterns c)
        (tierAny advantagePatterns c) (tierAny exaggerationPatterns c)
        (tierAny severePatterns c) := by
  unfold maxTriggeredSeverity keikyohyoRules
  rw [List.foldl_append, List.foldl_append, List.foldl_append,
    foldl_sev_block, foldl_sev_block, foldl_sev_block, foldl_sev_block]
  rfl

theorem maxTriggeredSeverity_yk (c : String) :
    maxTriggeredSeverity yakukihoRules c =
      ykRiskOf (tierAny medicalDevicePatterns c)
        (tierAny pharmaceuticalPatterns c) (tierAny bodyPartPatterns c) := by
  unfold maxTriggeredSeverity yakukihoRules
  rw [List.foldl_append, List.foldl_append,
    foldl_sev_block, foldl_sev_block, foldl_sev_block]
  rfl

theorem kinshohoSpecRisk_closed (c : String) :
    kinshohoSpecRisk c =
      ksRiskOf (tierAny investmentPatterns c) (disclaimerTriggered c) := by
  unfold kinshohoSpecRisk maxTriggeredSeverity kinshohoPatternRules
  rw [foldl_sev_block]
  rfl

theorem kkRiskOf_eq_spec (e a x s : Bool) :
    kkRiskOf e a x s = kkSpecRiskOf e a x s := by
  cases e <;> cases a <;> cases x <;> cases s <;> rfl

theorem tierMsgs_nil_iff (pats : List CharClass) (mk : String → String)
    (c : String) :
    tierMsgs pats mk c = [] ↔ tierAny pats c = false := by
  unfold tierMsgs tierAny
  rw [List.map_eq_nil_iff, List.filter_eq_nil_iff, List.any_eq_false]

/-! ### Keyword classification of the violation messages

Each message template embeds the matched substring (a single character)
between fixed fragments; the keyword tests of the recommendation
generators are decided by the fixed fragments alone, for every possible
matched character. -/

theorem adviceK_excellence (ch : Char) :
    adviceForKeikyohyo (excellenceMsg (Char.toString ch)) =
      [recKeiExcel1, recKeiExcel2] := by
  unfold adviceForKeikyohyo excellenceMsg
  rw [strIncludes_of_left _ _ _ _ (by decide),
    not_strIncludes_around _ _ _ ch (by decide) (by decide) (by decide),
    not_strIncludes_around _ _ _ ch (by decide) (by decide) (by decide)]
  rfl

theorem adviceK_advantage (ch : Char) :
    adviceForKeikyohyo (advantageMsg (Char.toString ch)) =
      [recKeiAdv1, recKeiAdv2] := by
  unfold adviceForKeikyohyo advantageMsg
  rw [not_strIncludes_around _ _ _ ch (by decide) (by decide) (by decide),
    strIncludes_of_left _ _ _ _ (by decide),
    not_strIncludes_around _ _ _ ch (by decide) (by decide) (by decide)]
  rfl

theorem adviceK_exaggeration (ch : Char) :
    adviceForKeikyohyo (exaggerationMsg (Char.toString ch)) =
      [recKeiExag1, recKeiExag2] := by
  unfold adviceForKeikyohyo exaggerationMsg
  rw [not_strIncludes_around _ _ _ ch (by decide) (by decide) (by decide),
    not_strIncludes_around _ _ _ ch (by decide) (by decide) (by decide),
    strIncludes_of_left _ _ _ _ (by decide)]
  rfl

theorem adviceK_severe (ch : Char) :
    adviceForKeikyohyo (severeMsg (Char.toString ch)) = [] := by
  unfold adviceForKeikyohyo severeMsg
  rw [not_strIncludes_around _ _ _ ch (by decide) (by decide) (by decide),
    not_strIncludes_around _ _ _ ch (by decide) (by decide) (by decide),
    not_strIncludes_around _ _ _ ch (by decide) (by decide) (by decide)]
  rfl

theorem adviceY_medical (ch : Char) :
    adviceForYakukiho (medicalDeviceMsg (Char.toString ch)) =
      [recYakMed1, recYakMed2] := by
  unfold adviceForYakukiho medicalDeviceMsg
  rw [strIncludes_of_right _ _ _ _ (by decide),
    not_strIncludes_around _ _ _ ch (by decide) (by decide) (by decide),
    not_strIncludes_around _ _ _ ch (by decide) (by decide) (by decide)]
  rfl

theorem adviceY_pharma (ch : Char) :
    adviceForYakukiho (pharmaceuticalMsg (Char.toString ch)) =
      [recYakPhar1, recYakPhar2] := by
  unfold adviceForYakukiho pharmaceuticalMsg
  rw [not_strIncludes_around _ _ _ ch (by decide) (by decide) (by decide),
    strIncludes_of_left _ _ _ _ (by decide),
    not_strIncludes_around _ _ _ ch (by decide) (by decide) (by decide)]
  rfl

theorem adviceY_body (ch : Char) :
    adviceForYakukiho (bodyPartMsg (Char.toString ch)) =
      [recYakBody1, recYakBody2] := by
  unfold adviceForYakukiho bodyPartMsg
  rw [not_strIncludes_around _ _ _ ch (by decide) (by decide) (by decide),
    not_strIncludes_around _ _ _ ch (by decide) (by decide) (by decide),
    strIncludes_of_left _ _ _ _ (by decide)]
  rfl

theorem adviceKin_investment (ch : Char) :
    adviceForKinshoho (investmentMsg (Char.toString ch)) =
      [recKinInv1, recKinInv2] := by
  unfold adviceForKinshoho investmentMsg
  rw [strIncludes_of_right _ _ _ _ (by decide),
    not_strIncludes_around _ _ _ ch (by decide) (by decide) (by decide)]
  rfl

theorem adviceKin_disclaimer :
    adviceForKinshoho riskDisclaimerMsg = [recKinRisk1, recKinRisk2] := by
  decide

theorem adviceFor_tierMsgs (pats : List CharClass) (mk : String → String)
    (c : String) (adviceFn : String → List String) (A : List String)
    (hmk : ∀ ch, adviceFn (mk (Char.toString ch)) = A) :
    ∀ v ∈ tierMsgs pats mk c, adviceFn v = A := by
  intro v hv
  unfold tierMsgs at hv
  obtain ⟨p, hp, rfl⟩ := List.mem_map.mp hv
  have ht : testPattern p c = true := (List.mem_filter.mp hp).2
  obtain ⟨ch, hch⟩ := matchedStr_eq_char p c ht
  rw [hch, hmk]

/-! ### Assembling the recommendation lists -/

theorem flatten_rep_nil {α : Type _} : ∀ k : Nat,
    (List.replicate k ([] : List α)).flatten = [] := by
  intro k
  induction k with
  | zero => rfl
  | succ k ih => rw [List.replicate_succ, List.flatten_cons, ih]; rfl

theorem flatten_rep_pair_eq_nil_iff {α : Type _} (s₁ s₂ : α) (k : Nat) :
    (List.replicate k [s₁, s₂]).flatten = [] ↔ k = 0 := by
  cases k with
  | zero => simp
  | succ k => simp [List.replicate_succ]

theorem if_pair_eq_nil_iff {α : Type _} (k : Nat) (y z : α) :
    ((if k = 0 then ([] : List α) else [y, z]) = []) ↔ k = 0 := by
  by_cases h : k = 0 <;> simp [h]

theorem eDF_blocks1 {α : Type _} [DecidableEq α] (s₁ s₂ : α) (k : Nat)
    (rest : List α) :
    eraseDupsFirst ((List.replicate k [s₁, s₂]).flatten ++ rest) =
      eraseDupsFirst ((if k = 0 then [] else [s₁, s₂]) ++ rest) := by
  have e1 : (List.replicate k [s₁, s₂]).flatten ++ rest =
      [] ++ ((List.replicate k [s₁, s₂]).flatten ++ rest) := by simp
  rw [e1, eDF_block [] s₁ s₂ k rest]
  simp

theorem eDF_blocks3 {α : Type _} [DecidableEq α] (s₁ s₂ t₁ t₂ u₁ u₂ : α)
    (k₁ k₂ k₃ : Nat) :
    eraseDupsFirst ((List.replicate k₁ [s₁, s₂]).flatten ++
      (List.replicate k₂ [t₁, t₂]).flatten ++
      (List.replicate k₃ [u₁, u₂]).flatten) =
    eraseDupsFirst ((if k₁ = 0 then [] else [s₁, s₂]) ++
      (if k₂ = 0 then [] else [t₁, t₂]) ++
      (if k₃ = 0 then [] else [u₁, u₂])) := by
  have e1 : (List.replicate k₁ [s₁, s₂]).flatten ++
      (List.replicate k₂ [t₁, t₂]).flatten ++
      (List.replicate k₃ [u₁, u₂]).flatten =
      [] ++ ((List.replicate k₁ [s₁, s₂]).flatten ++
        ((List.replicate k₂ [t₁, t₂]).flatten ++
          ((List.replicate k₃ [u₁, u₂]).flatten ++ []))) := by simp
  rw [e1, eDF_block [] s₁ s₂ k₁ _]
  have e2 : ([] : List α) ++ ((if k₁ = 0 then [] else [s₁, s₂]) ++
      ((List.replicate k₂ [t₁, t₂]).flatten ++
        ((List.replicate k₃ [u₁, u₂]).flatten ++ []))) =
      (if k₁ = 0 then [] else [s₁, s₂]) ++
        ((List.replicate k₂ [t₁, t₂]).flatten ++
          ((List.replicate k₃ [u₁, u₂]).flatten ++ [])) := by simp
  rw [e2, eDF_block _ t₁ t₂ k₂ _]
  have e3 : (if k₁ = 0 then [] else [s₁, s₂]) ++
      ((if k₂ = 0 then [] else [t₁, t₂]) ++
        ((List.replicate k₃ [u₁, u₂]).flatten ++ [])) =
      ((if k₁ = 0 then [] else [s₁, s₂]) ++
        (if k₂ = 0 then [] else [t₁, t₂])) ++
        ((List.replicate k₃ [u₁, u₂]).flatten ++ []) := by
    simp
  rw [e3, eDF_block _ u₁ u₂ k₃ _]
  simp

theorem blocks3_nil_iff {α : Type _} (s₁ s₂ t₁ t₂ u₁ u₂ : α)
    (k₁ k₂ k₃ : Nat) :
    ((List.replicate k₁ [s₁, s₂]).flatten ++
      (List.replicate k₂ [t₁, t₂]).flatten ++
      (List.replicate k₃ [u₁, u₂]).flatten = []) ↔
    ((if k₁ = 0 then [] else [s₁, s₂]) ++
      (if k₂ = 0 then [] else [t₁, t₂]) ++
      (if k₃ = 0 then [] else [u₁, u₂]) = []) := by
  simp [List.append_eq_nil, flatten_rep_pair_eq_nil_iff, if_pair_eq_nil_iff]

/-- Generic closed form of a three-tier recommendation generator: per-tier
advice blocks, deduplicated keeping first occurrences, with the positive
fallback exactly when no advice-carrying tier triggered. -/
theorem recs3_closed (m₁ m₂ m₃ mS : List String) (f : String → List String)
    (a₁ a₂ b₁ b₂ c₁ c₂ : String) (noIssue : String) (e a x : Bool)
    (h₁ : ∀ v ∈ m₁, f v = [a₁, a₂]) (h₂ : ∀ v ∈ m₂, f v = [b₁, b₂])
    (h₃ : ∀ v ∈ m₃, f v = [c₁, c₂]) (hS : ∀ v ∈ mS, f v = [])
    (he : m₁ = [] ↔ e = false) (ha : m₂ = [] ↔ a = false)
    (hx : m₃ = [] ↔ x = false) :
    eraseDupsFirst
      (if ((m₁ ++ m₂ ++ m₃ ++ mS).foldl
          (fun acc v => acc ++ f v) []).isEmpty
       then [noIssue]
       else (m₁ ++ m₂ ++ m₃ ++ mS).foldl (fun acc v => acc ++ f v) []) =
    (if ((if e then [a₁, a₂] else []) ++ (if a then [b₁, b₂] else []) ++
        (if x then [c₁, c₂] else [])).isEmpty
     then [noIssue]
     else eraseDupsFirst ((if e then [a₁, a₂] else []) ++
       (if a then [b₁, b₂] else []) ++ (if x then [c₁, c₂] else []))) := by
  have hF₁ := flatMap_const f [a₁, a₂] m₁ h₁
  have hF₂ := flatMap_const f [b₁, b₂] m₂ h₂
  have hF₃ := flatMap_const f [c₁, c₂] m₃ h₃
  have hFS := flatMap_const f [] mS hS
  rw [foldl_append_eq_flatMap, List.nil_append, List.flatMap_append,
    List.flatMap_append, List.flatMap_append, hF₁, hF₂, hF₃, hFS,
    flatten_rep_nil, List.append_nil]
  have hbe : (if e then [a₁, a₂] else []) =
      (if m₁.length = 0 then [] else [a₁, a₂]) := by
    by_cases hh : e
    · rw [if_pos hh, if_neg fun h0 => by
        have h1 := he.mp (List.length_eq_zero.mp h0)
        rw [hh] at h1
        exact Bool.noConfusion h1]
    · rw [if_neg hh,
        if_pos (List.length_eq_zero.mpr
          (he.mpr (Bool.eq_false_iff.mpr hh)))]
  have hba : (if a then [b₁, b₂] else []) =
      (if m₂.length = 0 then [] else [b₁, b₂]) := by
    by_cases hh : a
    · rw [if_pos hh, if_neg fun h0 => by
        have h1 := ha.mp (List.length_eq_zero.mp h0)
        rw [hh] at h1
        exact Bool.noConfusion h1]
    · rw [if_neg hh,
        if_pos (List.length_eq_zero.mpr
          (ha.mpr (Bool.eq_false_iff.mpr hh)))]
  have hbx : (if x then [c₁, c₂] else []) =
      (if m₃.length = 0 then [] else [c₁, c₂]) := by
    by_cases hh : x
    · rw [if_pos hh, if_neg fun h0 => by
        have h1 := hx.mp (List.length_eq_zero.mp h0)
        rw [hh] at h1
        exact Bool.noConfusion h1]
    · rw [if_neg hh,
        if_pos (List.length_eq_zero.mpr
          (hx.mpr (Bool.eq_false_iff.mpr hh)))]
  rw [hbe, hba, hbx]
  by_cases hne : ((List.replicate m₁.length [a₁, a₂]).flatten ++
      (List.replicate m₂.length [b₁, b₂]).flatten ++
      (List.replicate m₃.length [c₁, c₂]).flatten).isEmpty = true
  · rw [if_pos hne,
      if_pos (List.isEmpty_iff.mpr
        ((blocks3_nil_iff a₁ a₂ b₁ b₂ c₁ c₂ _ _ _).mp
          (List.isEmpty_iff.mp hne)))]
    rfl
  · rw [if_neg hne,
      if_neg fun h0 => hne (List.isEmpty_iff.mpr
        ((blocks3_nil_iff a₁ a₂ b₁ b₂ c₁ c₂ _ _ _).mpr
          (List.isEmpty_iff.mp h0)))]
    exact eDF_blocks3 a₁ a₂ b₁ b₂ c₁ c₂ _ _ _

/-- Generic closed form of a generator with one replicated advice block and
one at-most-once block (the financial category). -/
theorem recs2_closed (m₁ : List String) (f : String → List String)
    (a₁ a₂ r₁ r₂ : String) (dmsg noIssue : String) (i d : Bool)
    (h₁ : ∀ v ∈ m₁, f v = [a₁, a₂])
    (hdm : f dmsg = [r₁, r₂])
    (hi : m₁ = [] ↔ i = false) :
    eraseDupsFirst
      (if ((m₁ ++ (if d then [dmsg] else [])).foldl
          (fun acc v => acc ++ f v) []).isEmpty
       then [noIssue]
       else (m₁ ++ (if d then [dmsg] else [])).foldl
         (fun acc v => acc ++ f v) []) =
    (if ((if i then [a₁, a₂] else []) ++
        (if d then [r₁, r₂] else [])).isEmpty
     then [noIssue]
     else eraseDupsFirst ((if i then [a₁, a₂] else []) ++
       (if d then [r₁, r₂] else []))) := by
  have hF₁ := flatMap_const f [a₁, a₂] m₁ h₁
  have hFd : (if d then [dmsg] else []).flatMap f =
      (if d then [r₁, r₂] else []) := by
    cases d <;> simp [hdm]
  rw [foldl_append_eq_flatMap, List.nil_append, List.flatMap_append,
    hF₁, hFd]
  have hbi : (if i then [a₁, a₂] else []) =
      (if m₁.length = 0 then [] else [a₁, a₂]) := by
    by_cases hh : i
    · rw [if_pos hh, if_neg fun h0 => by
        have h1 := hi.mp (List.length_eq_zero.mp h0)
        rw [hh] at h1
        exact Bool.noConfusion h1]
    · rw [if_neg hh,
        if_pos (List.length_eq_zero.mpr
          (hi.mpr (Bool.eq_false_iff.mpr hh)))]
  rw [hbi]
  have hnil : ((List.replicate m₁.length [a₁, a₂]).flatten ++
      (if d then [r₁, r₂] else []) = []) ↔
      ((if m₁.length = 0 then [] else [a₁, a₂]) ++
        (if d then [r₁, r₂] else []) = []) := by
    simp [List.append_eq_nil, flatten_rep_pair_eq_nil_iff,
      if_pair_eq_nil_iff]
  by_cases hne : ((List.replicate m₁.length [a₁, a₂]).flatten ++
      (if d then [r₁, r₂] else [])).isEmpty = true
  · rw [if_pos hne,
      if_pos (List.isEmpty_iff.mpr (hnil.mp (List.isEmpty_iff.mp hne)))]
    rfl
  · rw [if_neg hne,
      if_neg fun h0 =>
        hne (List.isEmpty_iff.mpr (hnil.mpr (List.isEmpty_iff.mp h0)))]
    exact eDF_blocks1 a₁ a₂ _ _

theorem keikyohyoRecs_closed (c : String) :
    getKeikyohyoRecommendations
      (tierMsgs excellencePatterns excellenceMsg c ++
       tierMsgs advantagePatterns advantageMsg c ++
       tierMsgs exaggerationPatterns exaggerationMsg c ++
       tierMsgs severePatterns severeMsg c) = kkExpectedRecs c := by
  unfold getKeikyohyoRecommendations kkExpectedRecs
  exact recs3_closed _ _ _ _ adviceForKeikyohyo recKeiExcel1 recKeiExcel2
    recKeiAdv1 recKeiAdv2 recKeiExag1 recKeiExag2 noIssueKeikyohyo
    (tierAny excellencePatterns c) (tierAny advantagePatterns c)
    (tierAny exaggerationPatterns c)
    (adviceFor_tierMsgs _ _ _ _ _ adviceK_excellence)
    (adviceFor_tierMsgs _ _ _ _ _ adviceK_advantage)
    (adviceFor_tierMsgs _ _ _ _ _ adviceK_exaggeration)
    (adviceFor_tierMsgs _ _ _ _ _ adviceK_severe)
    (tierMsgs_nil_iff _ _ _) (tierMsgs_nil_iff _ _ _)
    (tierMsgs_nil_iff _ _ _)

theorem yakukihoRecs_closed (c : String) :
    getYakukihoRecommendations
      (tierMsgs medicalDevicePatterns medicalDeviceMsg c ++
       tierMsgs pharmaceuticalPatterns pharmaceuticalMsg c ++
       tierMsgs bodyPartPatterns bodyPartMsg c) = ykExpectedRecs c := by
  have e0 : tierMsgs medicalDevicePatterns medicalDeviceMsg c ++
      tierMsgs pharmaceuticalPatterns pharmaceuticalMsg c ++
      tierMsgs bodyPartPatterns bodyPartMsg c =
      tierMsgs medicalDevicePatterns medicalDeviceMsg c ++
      tierMsgs pharmaceuticalPatterns pharmaceuticalMsg c ++
      tierMsgs bodyPartPatterns bodyPartMsg c ++ ([] : List String) := by
    simp
  rw [e0]
  unfold getYakukihoRecommendations ykExpectedRecs
  exact recs3_closed _ _ _ [] adviceForYakukiho recYakMed1 recYakMed2
    recYakPhar1 recYakPhar2 recYakBody1 recYakBody2 noIssueYakukiho
    (tierAny medicalDevicePatterns c) (tierAny pharmaceuticalPatterns c)
    (tierAny bodyPartPatterns c)
    (adviceFor_tierMsgs _ _ _ _ _ adviceY_medical)
    (adviceFor_tierMsgs _ _ _ _ _ adviceY_pharma)
    (adviceFor_tierMsgs _ _ _ _ _ adviceY_body)
    (fun v hv => absurd hv (List.not_mem_nil v))
    (tierMsgs_nil_iff _ _ _) (tierMsgs_nil_iff _ _ _)
    (tierMsgs_nil_iff _ _ _)

theorem kinshohoRecs_closed (c : String) :
    getKinshohoRecommendations
      (tierMsgs investmentPatterns investmentMsg c ++
       (if disclaimerTriggered c then [riskDisclaimerMsg] else [])) =
      ksExpectedRecs c := by
  unfold getKinshohoRecommendations ksExpectedRecs
  exact recs2_closed _ adviceForKinshoho recKinInv1 recKinInv2
    recKinRisk1 recKinRisk2 riskDisclaimerMsg noIssueKinshoho
    (tierAny investmentPatterns c) (disclaimerTriggered c)
    (adviceFor_tierMsgs _ _ _ _ _ adviceKin_investment)
    adviceKin_disclaimer
    (tierMsgs_nil_iff _ _ _)

/-! ### Maximum of a fold -/

theorem le_foldl_max : ∀ (l : List Nat) (a : Nat), a ≤ l.foldl max a := by
  intro l
  induction l with
  | nil => intro a; exact le_rfl
  | cons b l ih =>
    intro a
    exact le_trans (Nat.le_max_left a b) (ih (max a b))

theorem mem_le_foldl_max :
    ∀ (l : List Nat) (a x : Nat), x ∈ l → x ≤ l.foldl max a := by
  intro l
  induction l with
  | nil => intro a x hx; simp at hx
  | cons b l ih =>
    intro a x hx
    rcases List.mem_cons.mp hx with h | h
    · subst h
      exact le_trans (Nat.le_max_right a x) (le_foldl_max l (max a x))
    · exact ih (max a b) x h

theorem foldl_max_cases :
    ∀ (l : List Nat) (a : Nat), l.foldl max a = a ∨ l.foldl max a ∈ l := by
  intro l
  induction l with
  | nil => intro a; exact Or.inl rfl
  | cons b l ih =>
    intro a
    rcases ih (max a b) with h | h
    · rcases Nat.le_total a b with hab | hab
      · rw [List.foldl_cons, h, Nat.max_eq_right hab]
        exact Or.inr (List.mem_cons_self b l)
      · rw [List.foldl_cons, h, Nat.max_eq_left hab]
        exact Or.inl rfl
    · exact Or.inr (List.mem_cons_of_mem b h)

theorem eraseDupsFirst_ne_nil {α : Type _} [DecidableEq α] (l : List α)
    (h : l ≠ []) : eraseDupsFirst l ≠ [] := by
  cases l with
  | nil => exact absurd rfl h
  | cons a l => simp [eraseDupsFirst, eraseDupsFirstAux]

/-! ### The claims -/

/-- C1.  Whenever a severe-tier pattern of the unfair-representation
category matches, the unfair-representation result has
status = violation and riskLevel = 5, regardless of the other tiers; in
particular this holds for every text containing the phrase 絶対に痩せる. -/
theorem claim1 (u t cid c : String) :
    (tierAny severePatterns c = true →
      (checkKeikyohyo u t cid c).check_status = CheckStatus.violation ∧
      (checkKeikyohyo u t cid c).risk_level = 5) ∧
    (strIncludes c "絶対に痩せる" = true →
      (checkKeikyohyo u t cid c).check_status = CheckStatus.violation ∧
      (checkKeikyohyo u t cid c).risk_level = 5) := by
  have main : tierAny severePatterns c = true →
      (checkKeikyohyo u t cid c).check_status = CheckStatus.violation ∧
      (checkKeikyohyo u t cid c).risk_level = 5 := by
    intro hS
    rw [checkKeikyohyo_status, checkKeikyohyo_risk, hS]
    exact ⟨by simp [kkStatusOf, setViolation], by simp [kkRiskOf]⟩
  refine ⟨main, fun hinc => main ?_⟩
  have hmem : '絶' ∈ c.toList := by
    have hinf := (strIncludes_iff c "絶対に痩せる").mp hinc
    exact hinf.subset (by decide)
  unfold tierAny
  apply List.any_eq_true.mpr
  refine ⟨['絶','対','に','痩','せ','る','確','実','に','儲','か','る'],
    by decide, ?_⟩
  unfold testPattern
  exact List.any_eq_true.mpr ⟨'絶', hmem, by decide⟩

theorem claim1_witness :
    (checkKeikyohyo "u" "t" "cid" "絶対に痩せる").check_status =
      CheckStatus.violation ∧
    (checkKeikyohyo "u" "t" "cid" "絶対に痩せる").risk_level = 5 :=
  (claim1 "u" "t" "cid" "絶対に痩せる").2 (by decide)

/-- C2.  A missing (null/undefined) text is the one input on which the
checker fails, with its single error kind; every actual string, however
empty, is checked without failure, and the empty and whitespace-only
strings produce three findings with no violations, status passed and risk
level 1. -/
theorem claim2 (u1 u2 u3 t1 t2 t3 cid : String) :
    checkContentChecked u1 u2 u3 t1 t2 t3 cid none =
      Except.error "法令チェックの実行に失敗しました" ∧
    (∀ s : String, ∃ rs,
      checkContentChecked u1 u2 u3 t1 t2 t3 cid (some s) = Except.ok rs) ∧
    ((checkContent u1 u2 u3 t1 t2 t3 cid "").map
      (fun f => (f.violation_details.violations, f.check_status,
        f.risk_level)) =
      [([], CheckStatus.passed, 1), ([], CheckStatus.passed, 1),
       ([], CheckStatus.passed, 1)]) ∧
    ((checkContent u1 u2 u3 t1 t2 t3 cid "   ").map
      (fun f => (f.violation_details.violations, f.check_status,
        f.risk_level)) =
      [([], CheckStatus.passed, 1), ([], CheckStatus.passed, 1),
       ([], CheckStatus.passed, 1)]) := by
  exact ⟨rfl, fun s => ⟨_, rfl⟩, rfl, rfl⟩

/-- C3.  Aggregation over stored findings: the empty set yields the
neutral default; otherwise the overall risk is the maximum stored risk
level (attained by some finding), the status is violation/warning/passed
by priority, and the summary reports the counts with a pure-pass
fallback. -/
theorem claim3 (rs : List LegalCheckResult) :
    getOverallRisk [] =
      ⟨1, CheckStatus.passed, "法令チェックが実行されていません"⟩ ∧
    (rs ≠ [] →
      (∀ r ∈ rs, r.risk_level ≤ (getOverallRisk rs).overall_risk) ∧
      (∃ r ∈ rs, (getOverallRisk rs).overall_risk = r.risk_level) ∧
      ((getOverallRisk rs).status =
        if rs.any (fun r => r.check_status == CheckStatus.violation) then
          CheckStatus.violation
        else if rs.any (fun r => r.check_status == CheckStatus.warning) then
          CheckStatus.warning
        else CheckStatus.passed) ∧
      ((getOverallRisk rs).summary =
        if (rs.filter
            (fun r => r.check_status == CheckStatus.violation)).length > 0
        then
          toString (rs.filter
            (fun r => r.check_status == CheckStatus.violation)).length ++
            "件の法令違反の可能性が検出されました。修正が必要です。"
        else if (rs.filter
            (fun r => r.check_status == CheckStatus.warning)).length > 0
        then
          toString (rs.filter
            (fun r => r.check_status == CheckStatus.warning)).length ++
            "件の注意事項が検出されました。確認をお勧めします。"
        else "法令チェックを通過しました。")) := by
  constructor
  · rfl
  · intro hne
    have hno : rs.isEmpty = false := by
      cases rs with
      | nil => exact absurd rfl hne
      | cons r rs => rfl
    have hunf : getOverallRisk rs =
        { overall_risk := listMax (rs.map (fun r => r.risk_level))
          status :=
            if rs.any (fun r => r.check_status == CheckStatus.violation) then
              CheckStatus.violation
            else if rs.any
                (fun r => r.check_status == CheckStatus.warning) then
              CheckStatus.warning
            else CheckStatus.passed
          summary :=
            if (rs.filter
                (fun r => r.check_status == CheckStatus.violation)).length
                > 0 then
              toString (rs.filter
                (fun r =>
                  r.check_status == CheckStatus.violation)).length ++
                "件の法令違反の可能性が検出されました。修正が必要です。"
            else if (rs.filter
                (fun r => r.check_status == CheckStatus.warning)).length
                > 0 then
              toString (rs.filter
                (fun r => r.check_status == CheckStatus.warning)).length ++
                "件の注意事項が検出されました。確認をお勧めします。"
            else "法令チェックを通過しました。" } := by
      unfold getOverallRisk
      rw [if_neg (by rw [hno]; exact Bool.noConfusion)]
    refine ⟨?_, ?_, by rw [hunf], by rw [hunf]⟩
    · intro r hr
      rw [hunf]
      exact mem_le_foldl_max _ 0 _ (List.mem_map.mpr ⟨r, hr, rfl⟩)
    · rw [hunf]
      show ∃ r ∈ rs, listMax (rs.map (fun r => r.risk_level)) = r.risk_level
      unfold listMax
      rcases foldl_max_cases (rs.map (fun r => r.risk_level)) 0 with h | h
      · cases rs with
        | nil => exact absurd rfl hne
        | cons r0 rs' =>
          refine ⟨r0, List.mem_cons_self r0 rs', ?_⟩
          have hle : r0.risk_level ≤
              ((r0 :: rs').map (fun r => r.risk_level)).foldl max 0 :=
            mem_le_foldl_max _ 0 _
              (List.mem_map.mpr ⟨r0, List.mem_cons_self r0 rs', rfl⟩)
          rw [h] at hle ⊢
          exact Nat.le_antisymm (Nat.le_zero.mp hle).le
            (Nat.zero_le _) |>.symm ▸ (Nat.le_zero.mp hle).symm
      · obtain ⟨r, hr, hr2⟩ := List.mem_map.mp h
        exact ⟨r, hr, hr2.symm⟩

theorem claim3_witness :
    ∃ r ∈ [checkKeikyohyo "u1" "t1" "cid" "",
           checkKinshoho "u3" "t3" "cid" "株",
           checkYakukiho "u2" "t2" "cid" "治"],
      (getOverallRisk [checkKeikyohyo "u1" "t1" "cid" "",
        checkKinshoho "u3" "t3" "cid" "株",
        checkYakukiho "u2" "t2" "cid" "治"]).overall_risk = r.risk_level :=
  ((claim3 [checkKeikyohyo "u1" "t1" "cid" "",
    checkKinshoho "u3" "t3" "cid" "株",
    checkYakukiho "u2" "t2" "cid" "治"]).2 (by decide)).2.1

/-- C4.  Each finding's risk level is the maximum severity contribution of
the triggered rules of its category (1 when none triggered), and the
violations list contains the messages of all triggered rules, lower tiers
included, in rule-table order. -/
theorem claim4 (u t cid c : String) :
    ((checkKeikyohyo u t cid c).risk_level =
        maxTriggeredSeverity keikyohyoRules c ∧
      (checkKeikyohyo u t cid c).violation_details.violations =
        triggeredMessages keikyohyoRules c) ∧
    ((checkYakukiho u t cid c).risk_level =
        maxTriggeredSeverity yakukihoRules c ∧
      (checkYakukiho u t cid c).violation_details.violations =
        triggeredMessages yakukihoRules c) ∧
    ((checkKinshoho u t cid c).risk_level = kinshohoSpecRisk c ∧
      (checkKinshoho u t cid c).violation_details.violations =
        triggeredMessages kinshohoPatternRules c ++
          (if disclaimerTriggered c then [riskDisclaimerMsg] else [])) := by
  refine ⟨⟨?_, ?_⟩, ⟨?_, ?_⟩, ?_, ?_⟩
  · rw [checkKeikyohyo_risk, maxTriggeredSeverity_kk, kkRiskOf_eq_spec]
  · rw [checkKeikyohyo_violations]
    unfold keikyohyoRules
    rw [triggeredMessages_append, triggeredMessages_append,
      triggeredMessages_append, triggeredMessages_block,
      triggeredMessages_block, triggeredMessages_block,
      triggeredMessages_block]
  · rw [checkYakukiho_risk, maxTriggeredSeverity_yk]
  · rw [checkYakukiho_violations]
    unfold yakukihoRules
    rw [triggeredMessages_append, triggeredMessages_append,
      triggeredMessages_block, triggeredMessages_block,
      triggeredMessages_block]
  · rw [checkKinshoho_risk, kinshohoSpecRisk_closed]
  · rw [checkKinshoho_violations]
    unfold kinshohoPatternRules
    rw [triggeredMessages_block]

/-- C5 counterexample.  The text 株注意 mentions a financial-instrument
term and does not contain リスク, yet its financial-instruments finding is
passed, not warning: the checker also accepts 注意 as a disclaimer. -/
theorem claim5_counterexample :
    hasFinancialTerms "株注意" = true ∧
    strIncludes "株注意" "リスク" = false ∧
    (checkKinshoho "u" "t" "cid" "株注意").check_status ≠
      CheckStatus.warning ∧
    (checkKinshoho "u" "t" "cid" "株注意").check_status =
      CheckStatus.passed :=
  ⟨by decide, by decide, by decide, by decide⟩

/-- C5 as amended.  A text that matches a financial-instrument pattern,
contains neither リスク nor 注意, and matches no investment-solicitation
pattern gets a financial-instruments finding with status = warning. -/
theorem claim5_amended (u t cid c : String)
    (hfin : hasFinancialTerms c = true)
    (hrisk : strIncludes c "リスク" = false)
    (hcaution : strIncludes c "注意" = false)
    (hinv : tierAny investmentPatterns c = false) :
    (checkKinshoho u t cid c).check_status = CheckStatus.warning := by
  rw [checkKinshoho_status, hinv]
  have hd : disclaimerTriggered c = true := by
    unfold disclaimerTriggered
    rw [hfin, hrisk, hcaution]
    rfl
  rw [hd]
  rfl

theorem claim5_witness :
    (checkKinshoho "u" "t" "cid" "株").check_status = CheckStatus.warning :=
  claim5_amended "u" "t" "cid" "株" (by decide) (by decide) (by decide)
    (by decide)

/-- C6 counterexample.  The text 痩 triggers only the severe
unfair-representation tier: violations is non-empty, yet the
recommendations are exactly the positive no-issues string, which is none
of the advisory strings of the category's sub-concerns. -/
theorem claim6_counterexample :
    (checkKeikyohyo "u" "t" "cid" "痩").violation_details.violations ≠
      [] ∧
    (checkKeikyohyo "u" "t" "cid" "痩").violation_details.recommendations =
      [noIssueKeikyohyo] ∧
    noIssueKeikyohyo ∉ [recKeiExcel1, recKeiExcel2, recKeiAdv1, recKeiAdv2,
      recKeiExag1, recKeiExag2] :=
  ⟨by decide, by decide, by decide⟩

/-- C6 as amended.  For every input and every category the recommendations
are non-empty, and equal the advisory strings of those triggered
sub-concerns that carry advice (the severe unfair-representation tier
carries none), deduplicated preserving first-seen order, with the single
positive no-issues string exactly when no advice-carrying sub-concern
triggered. -/
theorem claim6_amended (u t cid c : String) :
    ((checkKeikyohyo u t cid c).violation_details.recommendations =
        kkExpectedRecs c ∧
      (checkKeikyohyo u t cid c).violation_details.recommendations ≠ []) ∧
    ((checkYakukiho u t cid c).violation_details.recommendations =
        ykExpectedRecs c ∧
      (checkYakukiho u t cid c).violation_details.recommendations ≠ []) ∧
    ((checkKinshoho u t cid c).violation_details.recommendations =
        ksExpectedRecs c ∧
      (checkKinshoho u t cid c).violation_details.recommendations ≠ []) := by
  have hkk : (checkKeikyohyo u t cid c).violation_details.recommendations =
      kkExpectedRecs c := by
    show getKeikyohyoRecommendations
      ((checkKeikyohyo u t cid c).violation_details.violations) = _
    rw [checkKeikyohyo_violations, keikyohyoRecs_closed]
  have hyk : (checkYakukiho u t cid c).violation_details.recommendations =
      ykExpectedRecs c := by
    show getYakukihoRecommendations
      ((checkYakukiho u t cid c).violation_details.violations) = _
    rw [checkYakukiho_violations, yakukihoRecs_closed]
  have hks : (checkKinshoho u t cid c).violation_details.recommendations =
      ksExpectedRecs c := by
    show getKinshohoRecommendations
      ((checkKinshoho u t cid c).violation_details.violations) = _
    rw [checkKinshoho_violations, kinshohoRecs_closed]
  have hne1 : kkExpectedRecs c ≠ [] := by
    unfold kkExpectedRecs
    by_cases h : ((if tierAny excellencePatterns c then
        [recKeiExcel1, recKeiExcel2] else []) ++
        (if tierAny advantagePatterns c then [recKeiAdv1, recKeiAdv2]
          else []) ++
        (if tierAny exaggerationPatterns c then [recKeiExag1, recKeiExag2]
          else [])).isEmpty = true
    · rw [if_pos h]
      simp
    · rw [if_neg h]
      exact eraseDupsFirst_ne_nil _
        fun h0 => h (List.isEmpty_iff.mpr h0)
  have hne2 : ykExpectedRecs c ≠ [] := by
    unfold ykExpectedRecs
    by_cases h : ((if tierAny medicalDevicePatterns c then
        [recYakMed1, recYakMed2] else []) ++
        (if tierAny pharmaceuticalPatterns c then [recYakPhar1, recYakPhar2]
          else []) ++
        (if tierAny bodyPartPatterns c then [recYakBody1, recYakBody2]
          else [])).isEmpty = true
    · rw [if_pos h]
      simp
    · rw [if_neg h]
      exact eraseDupsFirst_ne_nil _
        fun h0 => h (List.isEmpty_iff.mpr h0)
  have hne3 : ksExpectedRecs c ≠ [] := by
    unfold ksExpectedRecs
    by_cases h : ((if tierAny investmentPatterns c then
        [recKinInv1, recKinInv2] else []) ++
        (if disclaimerTriggered c then [recKinRisk1, recKinRisk2]
          else [])).isEmpty = true
    · rw [if_pos h]
      simp
    · rw [if_neg h]
      exact eraseDupsFirst_ne_nil _
        fun h0 => h (List.isEmpty_iff.mpr h0)
  exact ⟨⟨hkk, hkk ▸ hne1⟩, ⟨hyk, hyk ▸ hne2⟩, hks, hks ▸ hne3⟩

theorem claim6_witness :
    (checkKeikyohyo "u" "t" "cid" "無料").violation_details.recommendations =
      kkExpectedRecs "無料" :=
  (claim6_amended "u" "t" "cid" "無料").1.1

/-- C7.  The orchestrator always returns exactly three findings, in the
fixed category order 景表法, 薬機法, 金商法. -/
theorem claim7 (u1 u2 u3 t1 t2 t3 cid c : String) :
    (checkContent u1 u2 u3 t1 t2 t3 cid c).map (fun f => f.law_type) =
      ["景表法", "薬機法", "金商法"] ∧
    (checkContent u1 u2 u3 t1 t2 t3 cid c).length = 3 :=
  ⟨rfl, rfl⟩

/-- C8.  Determinism: two evaluations of the same text under the same rule
tables agree on every field except the generated identifier and
timestamp. -/
theorem claim8 (u1 u2 u3 t1 t2 t3 w1 w2 w3 s1 s2 s3 cid c : String) :
    (checkContent u1 u2 u3 t1 t2 t3 cid c).map findingCore =
      (checkContent w1 w2 w3 s1 s2 s3 cid c).map findingCore :=
  rfl

/-- C9.  A finding with status = violation always has risk level at least
4: only the severe, medical-device and investment-solicitation tiers can
set status to violation, and they carry severity 4 or 5. -/
theorem claim9 (u1 u2 u3 t1 t2 t3 cid c : String) :
    ∀ f ∈ checkContent u1 u2 u3 t1 t2 t3 cid c,
      f.check_status = CheckStatus.violation → 4 ≤ f.risk_level := by
  have hkk : ∀ e a x s : Bool,
      kkStatusOf e a x s = CheckStatus.violation →
        4 ≤ kkRiskOf e a x s := by decide
  have hyk : ∀ m p b : Bool,
      ykStatusOf m p b = CheckStatus.violation → 4 ≤ ykRiskOf m p b := by
    decide
  have hks : ∀ i d : Bool,
      ksStatusOf i d = CheckStatus.violation → 4 ≤ ksRiskOf i d := by
    decide
  intro f hf
  rcases List.mem_cons.mp hf with h | hf
  · subst h
    rw [checkKeikyohyo_status, checkKeikyohyo_risk]
    exact hkk _ _ _ _
  rcases List.mem_cons.mp hf with h | hf
  · subst h
    rw [checkYakukiho_status, checkYakukiho_risk]
    exact hyk _ _ _
  rcases List.mem_cons.mp hf with h | hf
  · subst h
    rw [checkKinshoho_status, checkKinshoho_risk]
    exact hks _ _
  · simp at hf

theorem claim9_witness :
    4 ≤ (checkYakukiho "u2" "t2" "cid" "治").risk_level :=
  claim9 "u1" "u2" "u3" "t1" "t2" "t3" "cid" "治"
    (checkYakukiho "u2" "t2" "cid" "治")
    (List.mem_cons_of_mem _ (List.mem_cons_self _ _)) (by decide)

/-- C10.  A finding has status = passed exactly when its violations list
is empty, in which case its risk level is 1; and total_issues always
equals the number of violations. -/
theorem claim10 (u1 u2 u3 t1 t2 t3 cid c : String) :
    ∀ f ∈ checkContent u1 u2 u3 t1 t2 t3 cid c,
      (f.check_status = CheckStatus.passed ↔
        f.violation_details.violations = []) ∧
      (f.check_status = CheckStatus.passed → f.risk_level = 1) ∧
      f.violation_details.total_issues =
        f.violation_details.violations.length := by
  have hkk : ∀ e a x s : Bool,
      (kkStatusOf e a x s = CheckStatus.passed ↔
        (((e = false ∧ a = false) ∧ x = false) ∧ s = false)) ∧
      (kkStatusOf e a x s = CheckStatus.passed →
        kkRiskOf e a x s = 1) := by decide
  have hyk : ∀ m p b : Bool,
      (ykStatusOf m p b = CheckStatus.passed ↔
        ((m = false ∧ p = false) ∧ b = false)) ∧
      (ykStatusOf m p b = CheckStatus.passed → ykRiskOf m p b = 1) := by
    decide
  have hks : ∀ i d : Bool,
      (ksStatusOf i d = CheckStatus.passed ↔ (i = false ∧ d = false)) ∧
      (ksStatusOf i d = CheckStatus.passed → ksRiskOf i d = 1) := by decide
  intro f hf
  rcases List.mem_cons.mp hf with h | hf
  · subst h
    refine ⟨?_, ?_, rfl⟩
    · rw [checkKeikyohyo_status, checkKeikyohyo_violations,
        List.append_eq_nil, List.append_eq_nil, List.append_eq_nil,
        tierMsgs_nil_iff, tierMsgs_nil_iff, tierMsgs_nil_iff,
        tierMsgs_nil_iff]
      exact (hkk _ _ _ _).1
    · intro h
      rw [checkKeikyohyo_risk]
      rw [checkKeikyohyo_status] at h
      exact (hkk _ _ _ _).2 h
  rcases List.mem_cons.mp hf with h | hf
  · subst h
    refine ⟨?_, ?_, rfl⟩
    · rw [checkYakukiho_status, checkYakukiho_violations,
        List.append_eq_nil, List.append_eq_nil,
        tierMsgs_nil_iff, tierMsgs_nil_iff, tierMsgs_nil_iff]
      exact (hyk _ _ _).1
    · intro h
      rw [checkYakukiho_risk]
      rw [checkYakukiho_status] at h
      exact (hyk _ _ _).2 h
  rcases List.mem_cons.mp hf with h | hf
  · subst h
    refine ⟨?_, ?_, rfl⟩
    · rw [checkKinshoho_status, checkKinshoho_violations,
        List.append_eq_nil, tierMsgs_nil_iff]
      have hd : (if disclaimerTriggered c then [riskDisclaimerMsg]
          else []) = [] ↔ disclaimerTriggered c = false := by
        by_cases hd0 : disclaimerTriggered c <;> simp [hd0]
      rw [hd]
      exact (hks _ _).1
    · intro h
      rw [checkKinshoho_risk]
      rw [checkKinshoho_status] at h
      exact (hks _ _).2 h
  · simp at hf

theorem claim10_witness :
    (checkKeikyohyo "u1" "t1" "cid" "").check_status =
      CheckStatus.passed :=
  ((claim10 "u1" "u2" "u3" "t1" "t2" "t3" "cid" ""
    (checkKeikyohyo "u1" "t1" "cid" "")
    (List.mem_cons_self _ _)).1).mpr (by decide)

end LegalCheck
